import Mathlib

/-!
Verification of the client-side inventory-consistency engine of the
After School Classes frontend (src/src/App.vue and
src/src/components/{SearchBar,CheckoutForm}.vue).

The engine is shallowly embedded. JS object identity matters here (the cart
stores references to lesson objects, and the search error handler assigns the
catalog array itself to `searchResults`), so lesson objects live in an explicit
`heap` addressed by natural numbers, and the catalog list, the search-result
list and the cart lines hold addresses into that heap.
-/

namespace AfterSchool

/-- A lesson record as held by the frontend. Only the fields the engine reads
are modelled: the opaque identity `_id` (as `lid`) and `spaces`. JS numbers are
modelled as `Int`: nothing in the code clamps `spaces` at zero, and `spaces--`
happily produces negative values. -/
structure LessonObj where
  lid : Nat
  spaces : Int
deriving Repr, DecidableEq

/-- One entry of `cartItems` in App.vue: the `lesson:` field is a JS object
reference, modelled as a heap address; `quantity` is the accumulated count. -/
structure CartItem where
  lessonRef : Nat
  quantity : Nat
deriving Repr, DecidableEq

/-- The reactive state of App.vue that the engine mutates.

`heap` holds the live lesson objects (addressed by list index; allocation
appends). `lessons` mirrors `lessons.value`, `searchResults` mirrors
`searchResults.value`, both as lists of heap addresses, so the reference
assignment `searchResults.value = lessons.value` in the search error handler is
the address-list copy (the two views then share objects). UI-only flags
(loading spinners, the cart/lessons toggle, the success banner) are not part of
the engine state. -/
structure AppState where
  heap : List LessonObj
  lessons : List Nat
  searchResults : List Nat
  isSearchActive : Bool
  cartItems : List CartItem
deriving Repr, DecidableEq

/-- Replace the element at index `r` by `f` of it; out-of-range is a no-op.
This is the in-place JS object mutation `obj.field = ...` seen through the
heap. -/
def modifyAt : List α → Nat → (α → α) → List α
  | [], _, _ => []
  | a :: as, 0, f => f a :: as
  | a :: as, n+1, f => a :: modifyAt as n f

/-- In-place arithmetic on a lesson object's `spaces` (covers both `spaces--`,
with `d = -1`, and `spaces += item.quantity`). -/
def addSpacesAt (h : List LessonObj) (r : Nat) (d : Int) : List LessonObj :=
  modifyAt h r fun o => { o with spaces := o.spaces + d }

/-- The `_id` of the object a heap address points at. -/
def idAt (h : List LessonObj) (r : Nat) : Option Nat :=
  (h[r]?).map LessonObj.lid

/-- The `spaces` of the object a heap address points at. -/
def spacesAt (h : List LessonObj) (r : Nat) : Option Int :=
  (h[r]?).map LessonObj.spaces

/-- `list.find(l => l._id === id)` on a list of object references: the first
address in `refs` whose object has identity `id`. -/
def findRefById (h : List LessonObj) (refs : List Nat) (id : Nat) : Option Nat :=
  refs.find? fun r => idAt h r == some id

/-- The `spaces` value of the record a view displays for `id` (the record
`find` locates), if the view contains that id. -/
def viewSpaces (h : List LessonObj) (refs : List Nat) (id : Nat) : Option Int :=
  (findRefById h refs id).bind fun r => spacesAt h r

/-- The cart update inside `addToCart`: if some line's lesson has identity
`id`, increment the first such line's quantity (`existingItem.quantity++`),
else push a new line `{ lesson, quantity: 1 }` for the clicked object `r`. -/
def bumpCart (h : List LessonObj) (cart : List CartItem) (id : Nat) (r : Nat) :
    List CartItem :=
  match cart with
  | [] => [⟨r, 1⟩]
  | it :: rest =>
    if idAt h it.lessonRef == some id then
      { it with quantity := it.quantity + 1 } :: rest
    else
      it :: bumpCart h rest id r

/-- `findIndex` + `splice(itemIndex, 1)` in `removeFromCart`: locate the first
cart line whose lesson has identity `id` and return it together with the cart
with that line deleted; `none` if absent. -/
def removeFirstCart (h : List LessonObj) (cart : List CartItem) (id : Nat) :
    Option (CartItem × List CartItem) :=
  match cart with
  | [] => none
  | it :: rest =>
    if idAt h it.lessonRef == some id then some (it, rest)
    else
      match removeFirstCart h rest id with
      | none => none
      | some (found, rest') => some (found, it :: rest')

/-- Mutate, by `d`, the `spaces` of the record a single view's `find` locates
for `id` (no-op when the view does not contain the id, matching the
`if (lessonInList)` guards). -/
def mutateViewHeap (h : List LessonObj) (refs : List Nat) (id : Nat) (d : Int) :
    List LessonObj :=
  match findRefById h refs id with
  | some r => addSpacesAt h r d
  | none => h

/-- The dual write both cart operations perform: first the catalog record for
`id`, then — only `if (isSearchActive.value)` — the search-result record for
`id`, each located by `find` at the moment of its own mutation. -/
def mutateBothViews (h : List LessonObj) (lessonRefs searchRefs : List Nat)
    (active : Bool) (id : Nat) (d : Int) : List LessonObj :=
  let h1 := mutateViewHeap h lessonRefs id d
  if active then mutateViewHeap h1 searchRefs id d else h1

/-- `addToCart(lesson)` from App.vue. `r` is the clicked lesson object (the one
the LessonCard of a displayed view emits). Returns the new state and whether
the blocking `alert('Sorry, this lesson is fully booked!')` fired. The guard
reads the clicked object's own `spaces`; the mutation then finds the records by
`_id` in `lessons.value` and, if search is active, in `searchResults.value`. -/
def addToCart (s : AppState) (r : Nat) : AppState × Bool :=
  match s.heap[r]? with
  | none => (s, false)
  | some lesson =>
    if lesson.spaces ≤ 0 then
      (s, true)
    else
      ({ s with
          cartItems := bumpCart s.heap s.cartItems lesson.lid r,
          heap := mutateBothViews s.heap s.lessons s.searchResults
                    s.isSearchActive lesson.lid (-1) },
       false)

/-- `removeFromCart(lessonId)` from App.vue: no-op when no cart line matches;
otherwise restore the line's entire quantity to the catalog record and, if
search is active, to the search record, and delete the line. -/
def removeFromCart (s : AppState) (lessonId : Nat) : AppState :=
  match removeFirstCart s.heap s.cartItems lessonId with
  | none => s
  | some (item, rest) =>
    { s with
        heap := mutateBothViews s.heap s.lessons s.searchResults
                  s.isSearchActive lessonId (item.quantity : Int),
        cartItems := rest }

/-- Allocation of the fresh objects a response handler creates with
`data.map(enhanceLesson)`: append them to the heap and return their
addresses. -/
def allocRefs (h : List LessonObj) (data : List LessonObj) : List Nat :=
  (List.range data.length).map (· + h.length)

/-- The success path of `searchLessonsAPI`: `searchResults.value` becomes a
list of freshly created objects and `isSearchActive.value = true`. -/
def searchSuccess (s : AppState) (data : List LessonObj) : AppState :=
  { s with
      heap := s.heap ++ data,
      searchResults := allocRefs s.heap data,
      isSearchActive := true }

/-- The catch branch of `searchLessonsAPI`:
`searchResults.value = lessons.value` — a reference assignment, so the two
views now share addresses. `isSearchActive` is not touched. -/
def searchFailure (s : AppState) : AppState :=
  { s with searchResults := s.lessons }

/-- `clearSearch()` from App.vue. -/
def clearSearch (s : AppState) : AppState :=
  { s with searchResults := [], isSearchActive := false }

/-- The success path of `fetchLessons`: `lessons.value` becomes a list of
freshly created objects (replaced wholesale, not merged). -/
def fetchSuccess (s : AppState) (data : List LessonObj) : AppState :=
  { s with heap := s.heap ++ data, lessons := allocRefs s.heap data }

/-- `displayedLessons`: search results while search is active, the catalog
otherwise. -/
def displayedRefs (s : AppState) : List Nat :=
  if s.isSearchActive then s.searchResults else s.lessons

/-- The `_id`s of the displayed records, in display order. -/
def displayedIds (s : AppState) : List Nat :=
  (displayedRefs s).filterMap fun r => idAt s.heap r

/-- The displayed records themselves. -/
def displayedObjs (s : AppState) : List LessonObj :=
  (displayedRefs s).filterMap fun r => s.heap[r]?

/-- State at page load, before any fetch resolves. -/
def initState : AppState :=
  { heap := [], lessons := [], searchResults := [],
    isSearchActive := false, cartItems := [] }

/-- One user-or-network event the engine reacts to. `add` is restricted to a
displayed lesson object because only LessonCards of the displayed view emit
`add-to-cart`; every other constructor is a handler of App.vue applied with an
arbitrary backend response. `submitSuccess` is the fully successful order
pipeline: clear the cart, then refetch the catalog. -/
inductive Step : AppState → AppState → Prop
  | fetch (s : AppState) (data : List LessonObj) : Step s (fetchSuccess s data)
  | searchOk (s : AppState) (data : List LessonObj) : Step s (searchSuccess s data)
  | searchErr (s : AppState) : Step s (searchFailure s)
  | clear (s : AppState) : Step s (clearSearch s)
  | add (s : AppState) (r : Nat) (hr : r ∈ displayedRefs s) :
      Step s (addToCart s r).1
  | remove (s : AppState) (id : Nat) : Step s (removeFromCart s id)
  | submitSuccess (s : AppState) (data : List LessonObj) :
      Step s (fetchSuccess { s with cartItems := [] } data)

/-- States the engine can actually be in. -/
inductive Reachable : AppState → Prop
  | init : Reachable initState
  | step {s t : AppState} : Reachable s → Step s t → Reachable t

/-! ### The order-submission pipeline (`submitOrder` / `submitOrderAPI` /
`updateLessonSpaces`)

The network is an oracle: `postOk` is the outcome of `POST /order`, `putOk i`
the outcome of the `i`-th capacity-update `PUT`, and `refetchData` the body of
the `GET /lessons` the success path triggers. -/

/-- The `PUT /lessons/:id` payloads `updateLessonSpaces` issues: one per cart
line, in cart order, carrying `item.lesson._id` and the current
`item.lesson.spaces` of the referenced object ("Already updated in
frontend"). A dangling reference (impossible in reachable states) yields
`none`. -/
def putRequests (s : AppState) : List (Option (Nat × Int)) :=
  s.cartItems.map fun it => (s.heap[it.lessonRef]?).map fun o => (o.lid, o.spaces)

/-- `Promise.all` over the capacity updates: the whole batch succeeds exactly
when every issued request succeeds. -/
def allPutsOk (s : AppState) (putOk : Nat → Bool) : Bool :=
  (List.range s.cartItems.length).all putOk

/-- What one run of `submitOrder` leaves behind: the final engine state, the
capacity-update requests that went out, whether the run succeeded, and whether
the failure alert (`alert('Failed to submit order. Please try again.')`)
fired. -/
structure SubmitOutcome where
  finalState : AppState
  issuedPuts : List (Option (Nat × Int))
  success : Bool
  errorAlert : Bool
deriving Repr, DecidableEq

/-- `submitOrder(customerInfo)` from App.vue, composed with `submitOrderAPI`
and `updateLessonSpaces`:

* `POST /order` fails (`!response.ok` or transport error) → `submitOrderAPI`
  throws before `updateLessonSpaces` is ever called; `submitOrder` catches and
  alerts; nothing in the state was touched.
* `POST` succeeds → `updateLessonSpaces` issues one `PUT` per cart line (the
  `map` creates every request up front) and the batch result is `Promise.all`;
  if any `PUT` fails the rejection propagates, `submitOrder` catches and
  alerts, and no compensation of the already-sent requests happens.
* Everything succeeds → `cartItems.value = []`, then a full catalog refetch. -/
def submitOrderModel (s : AppState) (postOk : Bool) (putOk : Nat → Bool)
    (refetchData : List LessonObj) : SubmitOutcome :=
  if postOk = false then
    { finalState := s, issuedPuts := [], success := false, errorAlert := true }
  else
    let puts := putRequests s
    if allPutsOk s putOk then
      { finalState := fetchSuccess { s with cartItems := [] } refetchData,
        issuedPuts := puts, success := true, errorAlert := false }
    else
      { finalState := s, issuedPuts := puts, success := false, errorAlert := true }

/-! ### CheckoutForm validation (`validateName` / `validatePhone` /
`handleSubmit`)

JS strings are lists of characters so the character classes of the regexes
`/^[A-Za-z\s]+$/` and `/^[0-9]+$/` and `String.prototype.trim` are explicit. -/

/-- The characters the ECMAScript regex class `\s` matches (WhiteSpace and
LineTerminator code points), which is also the set `trim` strips. -/
def jsWhitespace (c : Char) : Bool :=
  c.toNat == 0x09 || c.toNat == 0x0A || c.toNat == 0x0B || c.toNat == 0x0C ||
  c.toNat == 0x0D || c.toNat == 0x20 || c.toNat == 0xA0 || c.toNat == 0x1680 ||
  (0x2000 ≤ c.toNat && c.toNat ≤ 0x200A) || c.toNat == 0x2028 ||
  c.toNat == 0x2029 || c.toNat == 0x202F || c.toNat == 0x205F ||
  c.toNat == 0x3000 || c.toNat == 0xFEFF

/-- `String.prototype.trim`: strip leading and trailing whitespace. -/
def jsTrim (s : List Char) : List Char :=
  ((s.dropWhile jsWhitespace).reverse.dropWhile jsWhitespace).reverse

/-- The regex class `[A-Za-z]`. -/
def isAsciiLetter (c : Char) : Bool :=
  ('A' ≤ c && c ≤ 'Z') || ('a' ≤ c && c ≤ 'z')

/-- The regex class `[0-9]`. -/
def isAsciiDigit (c : Char) : Bool :=
  '0' ≤ c && c ≤ '9'

/-- `/^[A-Za-z\s]+$/.test(name)`: nonempty, every character a letter or `\s`. -/
def namePatternTest (s : List Char) : Bool :=
  !s.isEmpty && s.all fun c => isAsciiLetter c || jsWhitespace c

/-- `/^[0-9]+$/.test(phone)`: nonempty, every character a digit. -/
def phonePatternTest (s : List Char) : Bool :=
  !s.isEmpty && s.all isAsciiDigit

/-- `validateName` from CheckoutForm.vue: the error message it stores in
`nameError` (`none` when validation passes). -/
def validateNameErr (customerName : List Char) : Option String :=
  let name := jsTrim customerName
  if name.isEmpty then some "Name is required"
  else if !namePatternTest name then some "Name must contain only letters and spaces"
  else if name.length < 2 then some "Name must be at least 2 characters"
  else none

/-- `validatePhone` from CheckoutForm.vue: the error message it stores in
`phoneError` (`none` when validation passes). -/
def validatePhoneErr (customerPhone : List Char) : Option String :=
  let phone := jsTrim customerPhone
  if phone.isEmpty then some "Phone number is required"
  else if !phonePatternTest phone then some "Phone number must contain only numbers"
  else if phone.length < 10 then some "Phone number must be at least 10 digits"
  else if phone.length > 15 then some "Phone number must be at most 15 digits"
  else none

/-- `handleSubmit` from CheckoutForm.vue: re-run both validators, then emit
`submit-order` with the trimmed fields exactly when `isFormValid` holds
(trimmed fields nonempty and neither validator stored an error). `none` means
no event was emitted. -/
def handleSubmitModel (customerName customerPhone : List Char) :
    Option (List Char × List Char) :=
  if !(jsTrim customerName).isEmpty && !(jsTrim customerPhone).isEmpty &&
      (validateNameErr customerName).isNone &&
      (validatePhoneErr customerPhone).isNone then
    some (jsTrim customerName, jsTrim customerPhone)
  else
    none

/-! ### Basic heap lemmas -/

theorem length_modifyAt (l : List α) (r : Nat) (f : α → α) :
    (modifyAt l r f).length = l.length := by
  induction l generalizing r with
  | nil => rfl
  | cons a as ih =>
    cases r with
    | zero => rfl
    | succ n => simpa [modifyAt] using ih n

theorem getElem?_modifyAt_self (l : List α) (r : Nat) (f : α → α) :
    (modifyAt l r f)[r]? = (l[r]?).map f := by
  induction l generalizing r with
  | nil => simp [modifyAt]
  | cons a as ih =>
    cases r with
    | zero => simp [modifyAt]
    | succ n => simpa [modifyAt] using ih n

theorem getElem?_modifyAt_ne (l : List α) (r r' : Nat) (f : α → α) (h : r' ≠ r) :
    (modifyAt l r f)[r']? = l[r']? := by
  induction l generalizing r r' with
  | nil => simp [modifyAt]
  | cons a as ih =>
    cases r with
    | zero =>
      cases r' with
      | zero => exact absurd rfl h
      | succ n' => simp [modifyAt]
    | succ n =>
      cases r' with
      | zero => simp [modifyAt]
      | succ n' => simpa [modifyAt] using ih n n' (by omega)

theorem modifyAt_modifyAt_self (l : List α) (r : Nat) (f g : α → α) :
    modifyAt (modifyAt l r f) r g = modifyAt l r (g ∘ f) := by
  induction l generalizing r with
  | nil => rfl
  | cons a as ih =>
    cases r with
    | zero => rfl
    | succ n => simpa [modifyAt] using ih n

theorem modifyAt_modifyAt_ne (l : List α) (a b : Nat) (f g : α → α) (h : a ≠ b) :
    modifyAt (modifyAt l a f) b g = modifyAt (modifyAt l b g) a f := by
  induction l generalizing a b with
  | nil => rfl
  | cons x xs ih =>
    cases a with
    | zero =>
      cases b with
      | zero => exact absurd rfl h
      | succ nb => simp [modifyAt]
    | succ na =>
      cases b with
      | zero => simp [modifyAt]
      | succ nb => simpa [modifyAt] using ih na nb (by omega)

theorem modifyAt_congrFun (l : List α) (r : Nat) (f g : α → α)
    (h : ∀ a, f a = g a) : modifyAt l r f = modifyAt l r g := by
  induction l generalizing r with
  | nil => rfl
  | cons x xs ih =>
    cases r with
    | zero => simp [modifyAt, h x]
    | succ n => simpa [modifyAt] using ih n

theorem modifyAt_id_fun (l : List α) (r : Nat) (f : α → α) (h : ∀ a, f a = a) :
    modifyAt l r f = l := by
  induction l generalizing r with
  | nil => rfl
  | cons x xs ih =>
    cases r with
    | zero => simp [modifyAt, h x]
    | succ n => simpa [modifyAt] using ih n

/-! ### addSpacesAt lemmas -/

theorem length_addSpacesAt (h : List LessonObj) (r : Nat) (d : Int) :
    (addSpacesAt h r d).length = h.length :=
  length_modifyAt ..

theorem spacesAt_addSpacesAt_self (h : List LessonObj) (r : Nat) (d : Int) :
    spacesAt (addSpacesAt h r d) r = (spacesAt h r).map (· + d) := by
  unfold spacesAt addSpacesAt
  rw [getElem?_modifyAt_self]
  cases h[r]? <;> simp

theorem spacesAt_addSpacesAt_ne (h : List LessonObj) (r r' : Nat) (d : Int)
    (hne : r' ≠ r) : spacesAt (addSpacesAt h r d) r' = spacesAt h r' := by
  unfold spacesAt addSpacesAt
  rw [getElem?_modifyAt_ne _ _ _ _ hne]

theorem idAt_addSpacesAt (h : List LessonObj) (r r' : Nat) (d : Int) :
    idAt (addSpacesAt h r d) r' = idAt h r' := by
  unfold idAt addSpacesAt
  rcases eq_or_ne r' r with rfl | hne
  · rw [getElem?_modifyAt_self]; cases h[r']? <;> simp
  · rw [getElem?_modifyAt_ne _ _ _ _ hne]

theorem addSpacesAt_addSpacesAt_self (h : List LessonObj) (r : Nat) (d e : Int) :
    addSpacesAt (addSpacesAt h r d) r e = addSpacesAt h r (d + e) := by
  unfold addSpacesAt
  rw [modifyAt_modifyAt_self]
  exact modifyAt_congrFun _ _ _ _ fun o => by
    simp [Function.comp, Int.add_assoc]

theorem addSpacesAt_comm (h : List LessonObj) (a b : Nat) (d e : Int)
    (hne : a ≠ b) :
    addSpacesAt (addSpacesAt h a d) b e = addSpacesAt (addSpacesAt h b e) a d :=
  modifyAt_modifyAt_ne _ _ _ _ _ hne

theorem addSpacesAt_zero (h : List LessonObj) (r : Nat) :
    addSpacesAt h r 0 = h :=
  modifyAt_id_fun _ _ _ fun o => by simp

/-! ### findRefById lemmas -/

theorem findRefById_congr {h h' : List LessonObj}
    (hid : ∀ r, idAt h' r = idAt h r) (refs : List Nat) (id : Nat) :
    findRefById h' refs id = findRefById h refs id := by
  induction refs with
  | nil => rfl
  | cons a as ih =>
    unfold findRefById at ih ⊢
    rw [List.find?_cons, List.find?_cons, hid a]
    cases idAt h a == some id
    · exact ih
    · rfl

theorem findRefById_some {h : List LessonObj} {refs : List Nat} {id r : Nat}
    (hf : findRefById h refs id = some r) : idAt h r = some id := by
  have hp := List.find?_some hf
  exact eq_of_beq hp

theorem findRefById_addSpacesAt (h : List LessonObj) (t : Nat) (d : Int)
    (refs : List Nat) (id : Nat) :
    findRefById (addSpacesAt h t d) refs id = findRefById h refs id :=
  findRefById_congr (fun r => idAt_addSpacesAt h t r d) refs id

/-! ### viewSpaces under single-record mutation -/

theorem viewSpaces_addSpacesAt_found {h : List LessonObj} {X : List Nat}
    {id rx : Nat} (hf : findRefById h X id = some rx) (d : Int) :
    viewSpaces (addSpacesAt h rx d) X id = (viewSpaces h X id).map (· + d) := by
  unfold viewSpaces
  rw [findRefById_addSpacesAt, hf]
  simp [spacesAt_addSpacesAt_self]

theorem viewSpaces_addSpacesAt_other {h : List LessonObj} {X : List Nat}
    {id rx : Nat} (hf : findRefById h X id = some rx) {t : Nat} (hne : t ≠ rx)
    (d : Int) : viewSpaces (addSpacesAt h t d) X id = viewSpaces h X id := by
  unfold viewSpaces
  rw [findRefById_addSpacesAt, hf]
  simp [spacesAt_addSpacesAt_ne _ _ _ _ (Ne.symm hne)]

theorem viewSpaces_addSpacesAt_none {h : List LessonObj} {X : List Nat}
    {id : Nat} (hf : findRefById h X id = none) (t : Nat) (d : Int) :
    viewSpaces (addSpacesAt h t d) X id = none := by
  unfold viewSpaces
  rw [findRefById_addSpacesAt, hf]
  rfl

theorem viewSpaces_addSpacesAt_ne_lid {h : List LessonObj} {t : Nat} {id0 : Nat}
    (ht : idAt h t = some id0) {id : Nat} (hne : id ≠ id0) (X : List Nat)
    (d : Int) : viewSpaces (addSpacesAt h t d) X id = viewSpaces h X id := by
  unfold viewSpaces
  rw [findRefById_addSpacesAt]
  cases hf : findRefById h X id with
  | none => rfl
  | some rx =>
    have hx := findRefById_some hf
    have hner : rx ≠ t := by
      intro he
      rw [he, ht] at hx
      exact hne (by injection hx with hv; exact hv.symm)
    simp [spacesAt_addSpacesAt_ne _ _ _ _ hner]

/-! ### mutateViewHeap / mutateBothViews lemmas -/

theorem idAt_mutateViewHeap (h : List LessonObj) (refs : List Nat) (id : Nat)
    (d : Int) (r' : Nat) : idAt (mutateViewHeap h refs id d) r' = idAt h r' := by
  unfold mutateViewHeap
  cases findRefById h refs id with
  | none => rfl
  | some t => exact idAt_addSpacesAt h t r' d

theorem idAt_mutateBothViews (h : List LessonObj) (L S : List Nat) (A : Bool)
    (id : Nat) (d : Int) (r' : Nat) :
    idAt (mutateBothViews h L S A id d) r' = idAt h r' := by
  unfold mutateBothViews
  cases A with
  | false => simpa using idAt_mutateViewHeap h L id d r'
  | true =>
    simp only [if_pos]
    rw [idAt_mutateViewHeap, idAt_mutateViewHeap]

theorem findRefById_mutateViewHeap (h : List LessonObj) (refs : List Nat)
    (id : Nat) (d : Int) (refs' : List Nat) (id' : Nat) :
    findRefById (mutateViewHeap h refs id d) refs' id' = findRefById h refs' id' :=
  findRefById_congr (fun r => idAt_mutateViewHeap h refs id d r) refs' id'

theorem findRefById_mutateBothViews (h : List LessonObj) (L S : List Nat)
    (A : Bool) (id : Nat) (d : Int) (refs' : List Nat) (id' : Nat) :
    findRefById (mutateBothViews h L S A id d) refs' id' =
      findRefById h refs' id' :=
  findRefById_congr (fun r => idAt_mutateBothViews h L S A id d r) refs' id'

theorem length_mutateViewHeap (h : List LessonObj) (refs : List Nat) (id : Nat)
    (d : Int) : (mutateViewHeap h refs id d).length = h.length := by
  unfold mutateViewHeap
  cases findRefById h refs id with
  | none => rfl
  | some t => exact length_addSpacesAt h t d

theorem length_mutateBothViews (h : List LessonObj) (L S : List Nat) (A : Bool)
    (id : Nat) (d : Int) : (mutateBothViews h L S A id d).length = h.length := by
  unfold mutateBothViews
  cases A with
  | false => simpa using length_mutateViewHeap h L id d
  | true =>
    simp only [if_pos]
    rw [length_mutateViewHeap, length_mutateViewHeap]

theorem mutateViewHeap_zero (h : List LessonObj) (refs : List Nat) (id : Nat) :
    mutateViewHeap h refs id 0 = h := by
  unfold mutateViewHeap
  cases findRefById h refs id with
  | none => rfl
  | some t => exact addSpacesAt_zero h t

theorem mutateBothViews_zero (h : List LessonObj) (L S : List Nat) (A : Bool)
    (id : Nat) : mutateBothViews h L S A id 0 = h := by
  unfold mutateBothViews
  cases A with
  | false => simpa using mutateViewHeap_zero h L id
  | true =>
    simp only [if_pos]
    rw [mutateViewHeap_zero, mutateViewHeap_zero]

theorem mutateBothViews_comp (h : List LessonObj) (L S : List Nat) (A : Bool)
    (id : Nat) (d e : Int) :
    mutateBothViews (mutateBothViews h L S A id d) L S A id e =
      mutateBothViews h L S A id (d + e) := by
  unfold mutateBothViews mutateViewHeap
  cases A with
  | false =>
    simp only [Bool.false_eq_true, if_neg, if_false]
    cases hL : findRefById h L id with
    | none => simp [hL]
    | some a => simp [findRefById_addSpacesAt, hL, addSpacesAt_addSpacesAt_self]
  | true =>
    simp only [if_pos, if_true]
    cases hL : findRefById h L id with
    | none =>
      simp only [hL]
      cases hS : findRefById h S id with
      | none => simp [hS, hL]
      | some b =>
        simp [hS, hL, findRefById_addSpacesAt, addSpacesAt_addSpacesAt_self]
    | some a =>
      simp only [hL]
      cases hS : findRefById (addSpacesAt h a d) S id with
      | none =>
        have hS0 : findRefById h S id = none := by
          rwa [findRefById_addSpacesAt] at hS
        simp [hS0, hL, findRefById_addSpacesAt, addSpacesAt_addSpacesAt_self]
      | some b =>
        have hS0 : findRefById h S id = some b := by
          rwa [findRefById_addSpacesAt] at hS
        rcases eq_or_ne a b with rfl | hab
        · simp only [hS0, hL, findRefById_addSpacesAt, hS,
            addSpacesAt_addSpacesAt_self]
          congr 1
          omega
        · simp only [hS0, hL, findRefById_addSpacesAt, hS,
            addSpacesAt_addSpacesAt_self]
          rw [addSpacesAt_comm _ _ _ _ _ (Ne.symm hab),
            addSpacesAt_addSpacesAt_self, addSpacesAt_addSpacesAt_self]

/-! ### viewSpaces under the dual write -/

theorem viewSpaces_mutateViewHeap_ne (h : List LessonObj) (refs : List Nat)
    (id0 : Nat) (d : Int) (X : List Nat) (id : Nat) (hne : id ≠ id0) :
    viewSpaces (mutateViewHeap h refs id0 d) X id = viewSpaces h X id := by
  unfold mutateViewHeap
  cases hf : findRefById h refs id0 with
  | none => rfl
  | some t => exact viewSpaces_addSpacesAt_ne_lid (findRefById_some hf) hne X d

theorem viewSpaces_mutateBothViews_ne (h : List LessonObj) (L S : List Nat)
    (A : Bool) (id0 : Nat) (d : Int) (X : List Nat) (id : Nat) (hne : id ≠ id0) :
    viewSpaces (mutateBothViews h L S A id0 d) X id = viewSpaces h X id := by
  unfold mutateBothViews
  cases A with
  | false => simpa using viewSpaces_mutateViewHeap_ne h L id0 d X id hne
  | true =>
    simp only [if_pos]
    rw [viewSpaces_mutateViewHeap_ne _ _ _ _ _ _ hne,
      viewSpaces_mutateViewHeap_ne _ _ _ _ _ _ hne]

theorem viewSpaces_mutateViewHeap_self (h : List LessonObj) (X : List Nat)
    (id : Nat) (d : Int) :
    viewSpaces (mutateViewHeap h X id d) X id = (viewSpaces h X id).map (· + d) := by
  unfold mutateViewHeap
  cases hf : findRefById h X id with
  | none => simp [viewSpaces, hf]
  | some rx => exact viewSpaces_addSpacesAt_found hf d

theorem mutateViewHeap_eq_of_none {h : List LessonObj} {X : List Nat} {id : Nat}
    (hf : findRefById h X id = none) (d : Int) : mutateViewHeap h X id d = h := by
  unfold mutateViewHeap
  rw [hf]

theorem mutateViewHeap_eq_of_some {h : List LessonObj} {X : List Nat}
    {id t : Nat} (hf : findRefById h X id = some t) (d : Int) :
    mutateViewHeap h X id d = addSpacesAt h t d := by
  unfold mutateViewHeap
  rw [hf]

theorem mutateBothViews_false (h : List LessonObj) (L S : List Nat) (id : Nat)
    (d : Int) : mutateBothViews h L S false id d = mutateViewHeap h L id d := by
  unfold mutateBothViews
  simp

theorem mutateBothViews_true (h : List LessonObj) (L S : List Nat) (id : Nat)
    (d : Int) :
    mutateBothViews h L S true id d =
      mutateViewHeap (mutateViewHeap h L id d) S id d := by
  unfold mutateBothViews
  simp

/-- The catalog-side effect of the dual write on the mutated id, provided the
two views do not share the located record. -/
theorem viewSpaces_mutateBothViews_catalog (h : List LessonObj) (L S : List Nat)
    (A : Bool) (id : Nat) (d : Int)
    (hsep : A = true → ∀ x, findRefById h L id = some x →
      findRefById h S id ≠ some x) :
    viewSpaces (mutateBothViews h L S A id d) L id =
      (viewSpaces h L id).map (· + d) := by
  cases A with
  | false => rw [mutateBothViews_false]; exact viewSpaces_mutateViewHeap_self h L id d
  | true =>
    rw [mutateBothViews_true]
    have h1self := viewSpaces_mutateViewHeap_self h L id d
    cases hfS : findRefById (mutateViewHeap h L id d) S id with
    | none => rw [mutateViewHeap_eq_of_none hfS]; exact h1self
    | some b =>
      have hfS0 : findRefById h S id = some b := by
        rwa [findRefById_mutateViewHeap] at hfS
      rw [mutateViewHeap_eq_of_some hfS]
      cases hfL : findRefById h L id with
      | none =>
        have hfL1 : findRefById (mutateViewHeap h L id d) L id = none := by
          rw [findRefById_mutateViewHeap, hfL]
        rw [viewSpaces_addSpacesAt_none hfL1 b d]
        simp [viewSpaces, hfL]
      | some a =>
        have hab : b ≠ a := fun he => hsep rfl a hfL (he ▸ hfS0)
        have hfL1 : findRefById (mutateViewHeap h L id d) L id = some a := by
          rw [findRefById_mutateViewHeap, hfL]
        rw [viewSpaces_addSpacesAt_other hfL1 hab d]
        exact h1self

/-- The search-side effect of the dual write on the mutated id (search active),
provided the two views do not share the located record. -/
theorem viewSpaces_mutateBothViews_search (h : List LessonObj) (L S : List Nat)
    (id : Nat) (d : Int)
    (hsep : ∀ x, findRefById h L id = some x → findRefById h S id ≠ some x) :
    viewSpaces (mutateBothViews h L S true id d) S id =
      (viewSpaces h S id).map (· + d) := by
  rw [mutateBothViews_true]
  have hstep : viewSpaces (mutateViewHeap h L id d) S id = viewSpaces h S id := by
    cases hfL : findRefById h L id with
    | none => rw [mutateViewHeap_eq_of_none hfL]
    | some a =>
      rw [mutateViewHeap_eq_of_some hfL]
      cases hfS : findRefById h S id with
      | none =>
        rw [viewSpaces_addSpacesAt_none hfS a d]
        simp [viewSpaces, hfS]
      | some b =>
        have hab : a ≠ b := fun he => hsep a hfL (he ▸ hfS)
        exact viewSpaces_addSpacesAt_other hfS hab d
  rw [viewSpaces_mutateViewHeap_self, hstep]

/-! ### Cart lemmas -/

theorem bumpCart_no_match {h : List LessonObj} {cart : List CartItem} {id : Nat}
    (hno : ∀ it ∈ cart, idAt h it.lessonRef ≠ some id) (r : Nat) :
    bumpCart h cart id r = cart ++ [⟨r, 1⟩] := by
  induction cart with
  | nil => rfl
  | cons it rest ih =>
    have h1 : (idAt h it.lessonRef == some id) = false :=
      beq_eq_false_iff_ne.2 (hno it (by simp))
    simp [bumpCart, h1, ih fun x hx => hno x (by simp [hx])]

theorem bumpCart_append {h : List LessonObj} {cart : List CartItem} {id : Nat}
    (hno : ∀ it ∈ cart, idAt h it.lessonRef ≠ some id) {r : Nat}
    (hr : idAt h r = some id) (k : Nat) (r' : Nat) :
    bumpCart h (cart ++ [⟨r, k⟩]) id r' = cart ++ [⟨r, k + 1⟩] := by
  induction cart with
  | nil => simp [bumpCart, hr]
  | cons it rest ih =>
    have h1 : (idAt h it.lessonRef == some id) = false :=
      beq_eq_false_iff_ne.2 (hno it (by simp))
    simp [bumpCart, h1, ih fun x hx => hno x (by simp [hx])]

theorem removeFirstCart_none {h : List LessonObj} {cart : List CartItem}
    {id : Nat} (hno : ∀ it ∈ cart, idAt h it.lessonRef ≠ some id) :
    removeFirstCart h cart id = none := by
  induction cart with
  | nil => rfl
  | cons it rest ih =>
    have h1 : (idAt h it.lessonRef == some id) = false :=
      beq_eq_false_iff_ne.2 (hno it (by simp))
    simp [removeFirstCart, h1, ih fun x hx => hno x (by simp [hx])]

theorem removeFirstCart_append {h : List LessonObj} {cart : List CartItem}
    {id : Nat} (hno : ∀ it ∈ cart, idAt h it.lessonRef ≠ some id) {r : Nat}
    (hr : idAt h r = some id) (k : Nat) :
    removeFirstCart h (cart ++ [⟨r, k⟩]) id = some (⟨r, k⟩, cart) := by
  induction cart with
  | nil => simp [removeFirstCart, hr]
  | cons it rest ih =>
    have h1 : (idAt h it.lessonRef == some id) = false :=
      beq_eq_false_iff_ne.2 (hno it (by simp))
    simp [removeFirstCart, h1, ih fun x hx => hno x (by simp [hx])]

/-- `removeFirstCart` deletes exactly the first matching line. -/
theorem removeFirstCart_eq_some {h : List LessonObj} {cart : List CartItem}
    {id : Nat} {it : CartItem} {rest : List CartItem}
    (he : removeFirstCart h cart id = some (it, rest)) :
    ∃ l1 l2, cart = l1 ++ it :: l2 ∧ rest = l1 ++ l2 ∧
      idAt h it.lessonRef = some id ∧
      ∀ x ∈ l1, idAt h x.lessonRef ≠ some id := by
  induction cart generalizing it rest with
  | nil => exact absurd he (by simp [removeFirstCart])
  | cons y ys ih =>
    by_cases hy : idAt h y.lessonRef = some id
    · have h1 : (idAt h y.lessonRef == some id) = true := by simp [hy]
      rw [removeFirstCart, if_pos h1] at he
      simp only [Option.some.injEq, Prod.mk.injEq] at he
      obtain ⟨rfl, rfl⟩ := he
      exact ⟨[], ys, by simp, by simp, hy, by simp⟩
    · have h1 : (idAt h y.lessonRef == some id) = false :=
        beq_eq_false_iff_ne.2 hy
      rw [removeFirstCart, if_neg (by simp [h1])] at he
      cases hr : removeFirstCart h ys id with
      | none => rw [hr] at he; exact absurd he (by simp)
      | some p =>
        obtain ⟨f, rest'⟩ := p
        rw [hr] at he
        simp only [Option.some.injEq, Prod.mk.injEq] at he
        obtain ⟨rfl, hrest⟩ := he
        obtain ⟨l1, l2, hc, hrst, hid, hnone⟩ := ih hr
        refine ⟨y :: l1, l2, by simp [hc], ?_, hid, ?_⟩
        · rw [← hrest, hrst]; rfl
        · intro x hx
          rcases List.mem_cons.1 hx with rfl | hx'
          · exact hy
          · exact hnone x hx'

/-- Number of cart lines whose lesson has identity `id`. -/
def linesFor (h : List LessonObj) (cart : List CartItem) (id : Nat) : Nat :=
  (cart.filter fun it => idAt h it.lessonRef == some id).length

theorem linesFor_congr {h h' : List LessonObj}
    (hid : ∀ r, idAt h' r = idAt h r) (cart : List CartItem) (id : Nat) :
    linesFor h' cart id = linesFor h cart id := by
  unfold linesFor
  induction cart with
  | nil => rfl
  | cons it rest ih =>
    rw [List.filter_cons, List.filter_cons, hid it.lessonRef]
    cases idAt h it.lessonRef == some id <;> simp_all

theorem linesFor_append (h : List LessonObj) (l1 l2 : List CartItem) (id : Nat) :
    linesFor h (l1 ++ l2) id = linesFor h l1 id + linesFor h l2 id := by
  simp [linesFor]

theorem linesFor_bumpCart_of_match {h : List LessonObj} {cart : List CartItem}
    {id : Nat} (hex : ∃ it ∈ cart, idAt h it.lessonRef = some id) (r : Nat)
    (id' : Nat) : linesFor h (bumpCart h cart id r) id' = linesFor h cart id' := by
  induction cart with
  | nil => exact absurd hex (by simp)
  | cons it rest ih =>
    by_cases hit : idAt h it.lessonRef = some id
    · rw [show bumpCart h (it :: rest) id r =
          { it with quantity := it.quantity + 1 } :: rest from by
        simp [bumpCart, hit]]
      unfold linesFor
      rw [List.filter_cons, List.filter_cons]
      cases idAt h it.lessonRef == some id' <;> simp
    · have hex' : ∃ x ∈ rest, idAt h x.lessonRef = some id := by
        obtain ⟨x, hx, hxi⟩ := hex
        rcases List.mem_cons.1 hx with rfl | hx'
        · exact absurd hxi hit
        · exact ⟨x, hx', hxi⟩
      rw [show bumpCart h (it :: rest) id r = it :: bumpCart h rest id r from by
        simp [bumpCart, hit]]
      have ihr := ih hex'
      unfold linesFor at ihr ⊢
      rw [List.filter_cons, List.filter_cons]
      cases idAt h it.lessonRef == some id' <;> simp [ihr]

theorem mem_bumpCart {h : List LessonObj} {cart : List CartItem} {id r : Nat}
    {x : CartItem} (hx : x ∈ bumpCart h cart id r) :
    (∃ it ∈ cart, x.lessonRef = it.lessonRef) ∨ x = ⟨r, 1⟩ := by
  induction cart with
  | nil =>
    have hx1 : x = ⟨r, 1⟩ := by simpa [bumpCart] using hx
    exact Or.inr hx1
  | cons it rest ih =>
    by_cases hit : (idAt h it.lessonRef == some id) = true
    · rw [bumpCart, if_pos hit] at hx
      rcases List.mem_cons.1 hx with rfl | hx'
      · exact Or.inl ⟨it, by simp, rfl⟩
      · exact Or.inl ⟨x, by simp [hx'], rfl⟩
    · rw [bumpCart, if_neg hit] at hx
      rcases List.mem_cons.1 hx with rfl | hx'
      · exact Or.inl ⟨x, by simp, rfl⟩
      · rcases ih hx' with ⟨y, hy, hyr⟩ | rfl
        · exact Or.inl ⟨y, by simp [hy], hyr⟩
        · exact Or.inr rfl

/-! ### Equation lemmas for the two cart operations -/

theorem addToCart_eq_none {s : AppState} {r : Nat} (hr : s.heap[r]? = none) :
    addToCart s r = (s, false) := by
  simp [addToCart, hr]

theorem addToCart_eq_guard {s : AppState} {r : Nat} {o : LessonObj}
    (hr : s.heap[r]? = some o) (ho : o.spaces ≤ 0) :
    addToCart s r = (s, true) := by
  simp [addToCart, hr, ho]

theorem addToCart_eq_success {s : AppState} {r : Nat} {o : LessonObj}
    (hr : s.heap[r]? = some o) (ho : 0 < o.spaces) :
    addToCart s r =
      ({ s with
          cartItems := bumpCart s.heap s.cartItems o.lid r,
          heap := mutateBothViews s.heap s.lessons s.searchResults
                    s.isSearchActive o.lid (-1) },
       false) := by
  have h2 : ¬o.spaces ≤ 0 := by omega
  simp [addToCart, hr, h2]

theorem removeFromCart_eq_none {s : AppState} {id : Nat}
    (hn : removeFirstCart s.heap s.cartItems id = none) :
    removeFromCart s id = s := by
  simp [removeFromCart, hn]

theorem removeFromCart_eq_some {s : AppState} {id : Nat} {item : CartItem}
    {rest : List CartItem}
    (hf : removeFirstCart s.heap s.cartItems id = some (item, rest)) :
    removeFromCart s id =
      { s with
          heap := mutateBothViews s.heap s.lessons s.searchResults
                    s.isSearchActive id (item.quantity : Int),
          cartItems := rest } := by
  simp [removeFromCart, hf]

/-! ### Reachable-state invariants: valid references, at most one cart line
per lesson id -/

/-- Every object reference the state holds points into the heap. -/
def WFState (s : AppState) : Prop :=
  (∀ r ∈ s.lessons, r < s.heap.length) ∧
  (∀ r ∈ s.searchResults, r < s.heap.length) ∧
  (∀ it ∈ s.cartItems, it.lessonRef < s.heap.length)

theorem idAt_append_lt {h : List LessonObj} {r : Nat} (hr : r < h.length)
    (t : List LessonObj) : idAt (h ++ t) r = idAt h r := by
  unfold idAt
  rw [List.getElem?_append_left hr]

theorem allocRefs_lt {h : List LessonObj} {data : List LessonObj} {x : Nat}
    (hx : x ∈ allocRefs h data) : x < h.length + data.length := by
  unfold allocRefs at hx
  obtain ⟨i, hi, rfl⟩ := List.mem_map.1 hx
  have := List.mem_range.1 hi
  omega

theorem linesFor_append_heap {h data : List LessonObj} {cart : List CartItem}
    (hv : ∀ it ∈ cart, it.lessonRef < h.length) (id : Nat) :
    linesFor (h ++ data) cart id = linesFor h cart id := by
  unfold linesFor
  induction cart with
  | nil => rfl
  | cons it rest ih =>
    rw [List.filter_cons, List.filter_cons, idAt_append_lt (hv it (by simp))]
    have ihr := ih fun x hx => hv x (by simp [hx])
    cases idAt h it.lessonRef == some id <;> simp [ihr]

theorem linesFor_eq_zero {h : List LessonObj} {cart : List CartItem} {id : Nat}
    (hno : ∀ it ∈ cart, idAt h it.lessonRef ≠ some id) :
    linesFor h cart id = 0 := by
  unfold linesFor
  rw [List.filter_eq_nil_iff.2 fun it hit => by
    simpa using beq_eq_false_iff_ne.2 (hno it hit)]
  rfl

/-- Invariants of every reachable state: all references valid, and each lesson
id on at most one cart line. -/
theorem reachable_inv {s : AppState} (hs : Reachable s) :
    WFState s ∧ ∀ id, linesFor s.heap s.cartItems id ≤ 1 := by
  induction hs with
  | init =>
    refine ⟨⟨?_, ?_, ?_⟩, ?_⟩ <;> simp [initState, linesFor]
  | @step s t hprev hstep ih =>
    obtain ⟨⟨hwL, hwS, hwC⟩, hlines⟩ := ih
    cases hstep with
    | fetch data =>
      refine ⟨⟨?_, ?_, ?_⟩, ?_⟩
      · intro r hr
        simpa [fetchSuccess] using allocRefs_lt hr
      · intro r hr
        have := hwS r hr
        simp [fetchSuccess]
        omega
      · intro it hit
        have := hwC it hit
        simp [fetchSuccess]
        omega
      · intro id
        simpa [fetchSuccess, linesFor_append_heap hwC] using hlines id
    | searchOk data =>
      refine ⟨⟨?_, ?_, ?_⟩, ?_⟩
      · intro r hr
        have := hwL r hr
        simp [searchSuccess]
        omega
      · intro r hr
        simpa [searchSuccess] using allocRefs_lt hr
      · intro it hit
        have := hwC it hit
        simp [searchSuccess]
        omega
      · intro id
        simpa [searchSuccess, linesFor_append_heap hwC] using hlines id
    | searchErr =>
      exact ⟨⟨hwL, fun r hr => hwL r hr, hwC⟩, hlines⟩
    | clear =>
      exact ⟨⟨hwL, by simp [clearSearch], hwC⟩, hlines⟩
    | add r hr =>
      cases hg : s.heap[r]? with
      | none => rw [addToCart_eq_none hg]; exact ⟨⟨hwL, hwS, hwC⟩, hlines⟩
      | some o =>
        by_cases hsp : o.spaces ≤ 0
        · rw [addToCart_eq_guard hg hsp]
          exact ⟨⟨hwL, hwS, hwC⟩, hlines⟩
        · rw [addToCart_eq_success hg (by omega)]
          have hrlen : r < s.heap.length := by
            unfold displayedRefs at hr
            by_cases ha : s.isSearchActive = true
            · rw [if_pos ha] at hr
              exact hwS r hr
            · rw [if_neg ha] at hr
              exact hwL r hr
          have hlenEq := length_mutateBothViews s.heap s.lessons
            s.searchResults s.isSearchActive o.lid (-1)
          refine ⟨⟨?_, ?_, ?_⟩, ?_⟩
          · intro x hx
            have := hwL x hx
            simpa [hlenEq] using this
          · intro x hx
            have := hwS x hx
            simpa [hlenEq] using this
          · intro it hit
            rcases mem_bumpCart hit with ⟨y, hy, hyr⟩ | rfl
            · have := hwC y hy
              simpa [hlenEq, hyr] using this
            · simpa [hlenEq] using hrlen
          · intro id
            rw [linesFor_congr (fun x => idAt_mutateBothViews s.heap s.lessons
              s.searchResults s.isSearchActive o.lid (-1) x)]
            by_cases hex : ∃ it ∈ s.cartItems, idAt s.heap it.lessonRef = some o.lid
            · rw [linesFor_bumpCart_of_match hex]
              exact hlines id
            · push_neg at hex
              rw [bumpCart_no_match hex, linesFor_append]
              have hidr : idAt s.heap r = some o.lid := by simp [idAt, hg]
              by_cases hidq : id = o.lid
              · subst hidq
                have h0 : linesFor s.heap s.cartItems o.lid = 0 :=
                  linesFor_eq_zero fun it hit => hex it hit
                have h1 : linesFor s.heap [⟨r, 1⟩] o.lid = 1 := by
                  simp [linesFor, hidr]
                omega
              · have h1 : linesFor s.heap [⟨r, 1⟩] id = 0 := by
                  refine linesFor_eq_zero fun it hit => ?_
                  simp at hit
                  subst hit
                  simp only [hidr]
                  intro hc
                  exact hidq (by injection hc with hv; exact hv.symm)
                have := hlines id
                omega
    | remove id =>
      cases hf : removeFirstCart s.heap s.cartItems id with
      | none => rw [removeFromCart_eq_none hf]; exact ⟨⟨hwL, hwS, hwC⟩, hlines⟩
      | some p =>
        obtain ⟨item, rest⟩ := p
        rw [removeFromCart_eq_some hf]
        obtain ⟨l1, l2, hc, hrst, hitid, hnone⟩ := removeFirstCart_eq_some hf
        have hlenEq := length_mutateBothViews s.heap s.lessons
          s.searchResults s.isSearchActive id (item.quantity : Int)
        refine ⟨⟨?_, ?_, ?_⟩, ?_⟩
        · intro x hx
          have := hwL x hx
          simpa [hlenEq] using this
        · intro x hx
          have := hwS x hx
          simpa [hlenEq] using this
        · intro it hit
          have hmem : it ∈ s.cartItems := by
            rw [hc]
            rcases List.mem_append.1 (hrst ▸ hit) with hx | hx
            · exact List.mem_append.2 (Or.inl hx)
            · exact List.mem_append.2 (Or.inr (List.mem_cons.2 (Or.inr hx)))
          have := hwC it hmem
          simpa [hlenEq] using this
        · intro id'
          rw [linesFor_congr (fun x => idAt_mutateBothViews s.heap s.lessons
            s.searchResults s.isSearchActive id (item.quantity : Int) x)]
          have hole := hlines id'
          rw [hc, linesFor_append] at hole
          rw [hrst, linesFor_append]
          have hcons : linesFor s.heap (item :: l2) id' ≥ linesFor s.heap l2 id' := by
            unfold linesFor
            rw [List.filter_cons]
            cases idAt s.heap item.lessonRef == some id' <;> simp
          omega
    | submitSuccess data =>
      refine ⟨⟨?_, ?_, ?_⟩, ?_⟩
      · intro r hr
        simpa [fetchSuccess] using allocRefs_lt hr
      · intro r hr
        have := hwS r hr
        simp [fetchSuccess]
        omega
      · intro it hit
        simp [fetchSuccess] at hit
      · intro id
        simp [fetchSuccess, linesFor]

/-! ### Claim C2 -/

/-- C2: the claim says every outgoing search request carries a monotonically
increasing sequence number and stale responses are discarded, so that when the
response for an earlier query ("ma") arrives after the response for a later
query ("math"), the displayed results are those of "math". The code has no
sequence counter at all: `searchLessonsAPI` assigns `searchResults.value`
whenever its own response arrives, so responses apply in arrival order and the
last arrival wins. Here the "math" response (the single lesson 1) arrives
first and the stale "ma" response (lessons 1 and 2) arrives second: the
displayed records end up being the stale "ma" results, not the "math"
results. -/
theorem c2_stale_search_response_overwrites :
    displayedObjs (searchSuccess (searchSuccess (fetchSuccess initState
        [⟨1, 5⟩, ⟨2, 4⟩]) [⟨1, 5⟩]) [⟨1, 5⟩, ⟨2, 4⟩]) = [⟨1, 5⟩, ⟨2, 4⟩] ∧
    ([⟨1, 5⟩, ⟨2, 4⟩] : List LessonObj) ≠ [⟨1, 5⟩] := by
  decide

/-! ### Claim C3 -/

/-- C3: the claim says `spaces ≥ 0` holds for every lesson record in every
reachable state. Counter-evaluation: catalog with one lesson (id 0,
`spaces = 1`); a successful search activates the projection; the next search
fails, so the error fallback assigns the catalog array itself to
`searchResults`; `addToCart` on the (displayed) lesson then passes the
`spaces <= 0` guard, decrements the catalog record, and — since search is
active and the search view aliases the catalog — decrements the same record a
second time, leaving `spaces = -1` in a reachable state. -/
theorem c3_reachable_negative_spaces :
    Reachable
      (addToCart (searchFailure (searchSuccess (fetchSuccess initState
        [⟨0, 1⟩]) [⟨0, 1⟩])) 0).1 ∧
    spacesAt
      (addToCart (searchFailure (searchSuccess (fetchSuccess initState
        [⟨0, 1⟩]) [⟨0, 1⟩])) 0).1.heap 0 = some (-1) := by
  refine ⟨?_, by decide⟩
  exact Reachable.step
    (Reachable.step
      (Reachable.step
        (Reachable.step Reachable.init (Step.fetch _ _))
        (Step.searchOk _ _))
      (Step.searchErr _))
    (Step.add _ 0 (by decide))

/-! ### Claim C5 -/

/-- C5: `addToCart` on a lesson whose `spaces` is zero (or negative) raises
the blocking alert, does not throw (the operation is a total function), and
leaves the whole state — cart, catalog and search projection — exactly as it
was; no network request is involved (`addToCart` contains no fetch at all). -/
theorem c5_capacity_exhausted_rejected (s : AppState) (r : Nat) (o : LessonObj)
    (hr : s.heap[r]? = some o) (ho : o.spaces ≤ 0) :
    (addToCart s r).1 = s ∧ (addToCart s r).2 = true := by
  rw [addToCart_eq_guard hr ho]
  exact ⟨rfl, rfl⟩

/-- Witness for C5 at a concrete sold-out lesson. -/
theorem c5_witness :
    (addToCart (fetchSuccess initState [⟨0, 0⟩]) 0).1 =
        fetchSuccess initState [⟨0, 0⟩] ∧
    (addToCart (fetchSuccess initState [⟨0, 0⟩]) 0).2 = true :=
  c5_capacity_exhausted_rejected (fetchSuccess initState [⟨0, 0⟩]) 0 ⟨0, 0⟩
    (by decide) (by decide)

/-! ### Claim C8 -/

/-- C8: when the order-creation `POST` fails, `submitOrderAPI` throws before
`updateLessonSpaces` is ever invoked and `submitOrder` catches and alerts: the
final state is exactly the starting state (in particular the Cart Ledger is
untouched), no capacity-update `PUT` is issued, and the run reports failure
with the error alert shown. -/
theorem c8_order_create_failure_atomic (s : AppState) (putOk : Nat → Bool)
    (refetchData : List LessonObj) (_hcart : s.cartItems ≠ []) :
    (submitOrderModel s false putOk refetchData).finalState = s ∧
    (submitOrderModel s false putOk refetchData).issuedPuts = [] ∧
    (submitOrderModel s false putOk refetchData).success = false ∧
    (submitOrderModel s false putOk refetchData).errorAlert = true := by
  unfold submitOrderModel
  simp

/-- Witness for C8 at a concrete one-line cart. -/
theorem c8_witness :
    (submitOrderModel ⟨[⟨0, 3⟩], [0], [], false, [⟨0, 2⟩]⟩ false
        (fun _ => true) []).finalState = ⟨[⟨0, 3⟩], [0], [], false, [⟨0, 2⟩]⟩ ∧
    (submitOrderModel ⟨[⟨0, 3⟩], [0], [], false, [⟨0, 2⟩]⟩ false
        (fun _ => true) []).issuedPuts = [] ∧
    (submitOrderModel ⟨[⟨0, 3⟩], [0], [], false, [⟨0, 2⟩]⟩ false
        (fun _ => true) []).success = false ∧
    (submitOrderModel ⟨[⟨0, 3⟩], [0], [], false, [⟨0, 2⟩]⟩ false
        (fun _ => true) []).errorAlert = true :=
  c8_order_create_failure_atomic ⟨[⟨0, 3⟩], [0], [], false, [⟨0, 2⟩]⟩
    (fun _ => true) [] (by decide)

/-! ### Claim C9 -/

/-- C9: after a successful order-creation `POST`, the pipeline issues exactly
one capacity-update `PUT` per cart line (in cart order), each carrying the
referenced lesson's current — already optimistically decremented — `spaces`
value; the run succeeds exactly when every `PUT` succeeds; and when any `PUT`
fails, failure is reported (alert) while nothing is compensated or retried:
the issued requests are exactly that one-per-line list and the state is left
as it was. (`Promise.all` settles the batch as a whole; every request has
already been dispatched by `map` before any result is awaited.) -/
theorem c9_capacity_update_fanout (s : AppState) (putOk : Nat → Bool)
    (refetchData : List LessonObj) :
    (submitOrderModel s true putOk refetchData).issuedPuts.length =
        s.cartItems.length ∧
    (∀ i : Nat, ∀ it : CartItem, s.cartItems[i]? = some it →
      (submitOrderModel s true putOk refetchData).issuedPuts[i]? =
        some ((s.heap[it.lessonRef]?).map fun o => (o.lid, o.spaces))) ∧
    ((submitOrderModel s true putOk refetchData).success = true ↔
      ∀ i, i < s.cartItems.length → putOk i = true) ∧
    ((submitOrderModel s true putOk refetchData).success = false →
      (submitOrderModel s true putOk refetchData).finalState = s ∧
      (submitOrderModel s true putOk refetchData).issuedPuts = putRequests s ∧
      (submitOrderModel s true putOk refetchData).errorAlert = true) := by
  have hputs : (submitOrderModel s true putOk refetchData).issuedPuts =
      putRequests s := by
    unfold submitOrderModel
    by_cases hall : allPutsOk s putOk = true <;> simp [hall]
  have hsucc : (submitOrderModel s true putOk refetchData).success =
      allPutsOk s putOk := by
    unfold submitOrderModel
    by_cases hall : allPutsOk s putOk = true <;> simp [hall]
  refine ⟨?_, ?_, ?_, ?_⟩
  · rw [hputs]
    simp [putRequests]
  · intro i it hit
    rw [hputs]
    unfold putRequests
    rw [List.getElem?_map, hit]
    rfl
  · rw [hsucc]
    unfold allPutsOk
    simp [List.all_eq_true]
  · intro hfail
    rw [hsucc] at hfail
    unfold submitOrderModel
    rw [hfail]
    simp [hputs, hfail]

/-- Witness for C9: two cart lines, the second `PUT` fails; both requests go
out with the current spaces values, the run reports failure, nothing else
changes. -/
theorem c9_witness :
    (submitOrderModel ⟨[⟨0, 3⟩, ⟨1, 7⟩], [0, 1], [], false, [⟨0, 2⟩, ⟨1, 1⟩]⟩
        true (fun i => i == 0) []).issuedPuts.length = 2 ∧
    (submitOrderModel ⟨[⟨0, 3⟩, ⟨1, 7⟩], [0, 1], [], false, [⟨0, 2⟩, ⟨1, 1⟩]⟩
        true (fun i => i == 0) []).finalState =
      ⟨[⟨0, 3⟩, ⟨1, 7⟩], [0, 1], [], false, [⟨0, 2⟩, ⟨1, 1⟩]⟩ ∧
    (submitOrderModel ⟨[⟨0, 3⟩, ⟨1, 7⟩], [0, 1], [], false, [⟨0, 2⟩, ⟨1, 1⟩]⟩
        true (fun i => i == 0) []).errorAlert = true := by
  have h := c9_capacity_update_fanout
    ⟨[⟨0, 3⟩, ⟨1, 7⟩], [0, 1], [], false, [⟨0, 2⟩, ⟨1, 1⟩]⟩
    (fun i => i == 0) []
  have hfail : (submitOrderModel
      ⟨[⟨0, 3⟩, ⟨1, 7⟩], [0, 1], [], false, [⟨0, 2⟩, ⟨1, 1⟩]⟩
      true (fun i => i == 0) []).success = false := by decide
  exact ⟨h.1, (h.2.2.2 hfail).1, (h.2.2.2 hfail).2.2⟩

/-! ### Claim C1: counterexample -/

/-- C1 counterexample: a reachable state that is the result of a cart mutation
and in which lesson id 0 is present in both the catalog and the active search
projection with different `spaces`. The catalog starts with lesson 0 at
`spaces = 2`; a successful search returns lesson 0 with the backend value
`spaces = 5` (the backend knows nothing of local optimistic decrements, and
here simply returns a different value); `addToCart` on the displayed search
copy then decrements both copies by one, leaving catalog `spaces = 1` and
search `spaces = 4` — not equal, immediately after a cart mutation. -/
theorem c1_counterexample :
    Reachable
      (addToCart (searchSuccess (fetchSuccess initState [⟨0, 2⟩]) [⟨0, 5⟩]) 1).1 ∧
    (addToCart (searchSuccess (fetchSuccess initState [⟨0, 2⟩]) [⟨0, 5⟩]) 1).1.isSearchActive
      = true ∧
    viewSpaces
      (addToCart (searchSuccess (fetchSuccess initState [⟨0, 2⟩]) [⟨0, 5⟩]) 1).1.heap
      (addToCart (searchSuccess (fetchSuccess initState [⟨0, 2⟩]) [⟨0, 5⟩]) 1).1.lessons
      0 = some 1 ∧
    viewSpaces
      (addToCart (searchSuccess (fetchSuccess initState [⟨0, 2⟩]) [⟨0, 5⟩]) 1).1.heap
      (addToCart (searchSuccess (fetchSuccess initState [⟨0, 2⟩]) [⟨0, 5⟩]) 1).1.searchResults
      0 = some 4 := by
  refine ⟨?_, by decide, by decide, by decide⟩
  exact Reachable.step
    (Reachable.step
      (Reachable.step Reachable.init (Step.fetch _ _))
      (Step.searchOk _ _))
    (Step.add _ 1 (by decide))

/-! ### Claim C4: counterexample -/

/-- C4 counterexample: the round trip is not the identity when the lesson is
already in the cart before the add. Reachable start: catalog lesson 0 with
`spaces = 5`, then one `addToCart` puts it in the cart (`spaces = 4`,
quantity 1). From there, `addToCart` followed by `removeFromCart` does not
restore that state: removal is all-or-nothing, so the pre-existing quantity is
also returned — `spaces` ends at 5 (not 4) and the cart line is gone
entirely (instead of the original quantity-1 line). -/
theorem c4_counterexample :
    Reachable (addToCart (fetchSuccess initState [⟨0, 5⟩]) 0).1 ∧
    (addToCart (fetchSuccess initState [⟨0, 5⟩]) 0).1.cartItems = [⟨0, 1⟩] ∧
    spacesAt (addToCart (fetchSuccess initState [⟨0, 5⟩]) 0).1.heap 0 = some 4 ∧
    removeFromCart
        (addToCart (addToCart (fetchSuccess initState [⟨0, 5⟩]) 0).1 0).1 0 ≠
      (addToCart (fetchSuccess initState [⟨0, 5⟩]) 0).1 ∧
    spacesAt (removeFromCart
        (addToCart (addToCart (fetchSuccess initState [⟨0, 5⟩]) 0).1 0).1
        0).heap 0 = some 5 ∧
    (removeFromCart
        (addToCart (addToCart (fetchSuccess initState [⟨0, 5⟩]) 0).1 0).1
        0).cartItems = [] := by
  refine ⟨?_, by decide, by decide, by decide, by decide, by decide⟩
  exact Reachable.step
    (Reachable.step Reachable.init (Step.fetch _ _))
    (Step.add _ 0 (by decide))

/-! ### Claim C6: counterexample -/

/-- C6 counterexample: after the search-failure fallback has aliased
`searchResults` to the catalog array, one `addToCart` on a lesson with
`spaces = 2 > 0` decrements the catalog record for that id by 2, not by 1:
the catalog view shows `spaces = 2` before the add and `spaces = 0` after it,
because the "mirror write" hits the very same record a second time. -/
theorem c6_counterexample :
    Reachable
      (addToCart (searchFailure (searchSuccess (fetchSuccess initState
        [⟨0, 2⟩]) [⟨0, 9⟩])) 0).1 ∧
    viewSpaces
      (searchFailure (searchSuccess (fetchSuccess initState [⟨0, 2⟩])
        [⟨0, 9⟩])).heap
      (searchFailure (searchSuccess (fetchSuccess initState [⟨0, 2⟩])
        [⟨0, 9⟩])).lessons 0 = some 2 ∧
    spacesAt
      (searchFailure (searchSuccess (fetchSuccess initState [⟨0, 2⟩])
        [⟨0, 9⟩])).heap 0 = some 2 ∧
    viewSpaces
      (addToCart (searchFailure (searchSuccess (fetchSuccess initState
        [⟨0, 2⟩]) [⟨0, 9⟩])) 0).1.heap
      (addToCart (searchFailure (searchSuccess (fetchSuccess initState
        [⟨0, 2⟩]) [⟨0, 9⟩])) 0).1.lessons 0 = some 0 := by
  refine ⟨?_, by decide, by decide, by decide⟩
  exact Reachable.step
    (Reachable.step
      (Reachable.step
        (Reachable.step Reachable.init (Step.fetch _ _))
        (Step.searchOk _ _))
      (Step.searchErr _))
    (Step.add _ 0 (by decide))

/-! ### Claim C7: counterexample -/

/-- C7 counterexample: in the aliased state (search-failure fallback while
search is active), `removeFromCart` of a quantity-1 line adds the quantity back
twice to the single shared record: the catalog record goes from `spaces = 2`
to `spaces = 4`, not to `2 + 1`. -/
theorem c7_counterexample :
    Reachable
      (removeFromCart (searchFailure (searchSuccess
        (addToCart (fetchSuccess initState [⟨0, 3⟩]) 0).1 [⟨0, 2⟩])) 0) ∧
    viewSpaces
      (searchFailure (searchSuccess
        (addToCart (fetchSuccess initState [⟨0, 3⟩]) 0).1 [⟨0, 2⟩])).heap
      (searchFailure (searchSuccess
        (addToCart (fetchSuccess initState [⟨0, 3⟩]) 0).1 [⟨0, 2⟩])).lessons
      0 = some 2 ∧
    (searchFailure (searchSuccess
        (addToCart (fetchSuccess initState [⟨0, 3⟩]) 0).1
        [⟨0, 2⟩])).cartItems = [⟨0, 1⟩] ∧
    viewSpaces
      (removeFromCart (searchFailure (searchSuccess
        (addToCart (fetchSuccess initState [⟨0, 3⟩]) 0).1 [⟨0, 2⟩])) 0).heap
      (removeFromCart (searchFailure (searchSuccess
        (addToCart (fetchSuccess initState [⟨0, 3⟩]) 0).1 [⟨0, 2⟩])) 0).lessons
      0 = some 4 := by
  refine ⟨?_, by decide, by decide, by decide⟩
  exact Reachable.step
    (Reachable.step
      (Reachable.step
        (Reachable.step
          (Reachable.step Reachable.init (Step.fetch _ _))
          (Step.add _ 0 (by decide)))
        (Step.searchOk _ _))
      (Step.searchErr _))
    (Step.remove _ 0)

/-! ### Claim C10: counterexample -/

/-- C10 counterexample: the name regex is `/^[A-Za-z\s]+$/` and `\s` matches
every whitespace character, not only the space: with the name
`"John\tDoe"` (an embedded tab) and a valid phone, `handleSubmit` emits the
`submit-order` event even though the name does not consist solely of letters
and spaces. -/
theorem c10_counterexample :
    handleSubmitModel "John\tDoe".toList "0123456789".toList =
      some ("John\tDoe".toList, "0123456789".toList) ∧
    ("John\tDoe".toList).all (fun c => isAsciiLetter c || c == ' ') = false ∧
    jsTrim "John\tDoe".toList = "John\tDoe".toList := by
  refine ⟨by decide, by decide, by decide⟩

/-! ### Claim C1: amended theorem -/

/-- Catalog/search consistency at a lesson id: whenever the search projection
is active and both views contain the id, the records the two views locate for
it have equal `spaces`. -/
def viewConsistentAt (s : AppState) (id : Nat) : Prop :=
  s.isSearchActive = true →
    ∀ x y, viewSpaces s.heap s.lessons id = some x →
      viewSpaces s.heap s.searchResults id = some y → x = y

theorem viewConsistent_mutate (h : List LessonObj) (L S : List Nat) (id0 : Nat)
    (d : Int) (id : Nat)
    (hpre : ∀ x y, viewSpaces h L id = some x → viewSpaces h S id = some y →
      x = y) :
    ∀ x y, viewSpaces (mutateBothViews h L S true id0 d) L id = some x →
      viewSpaces (mutateBothViews h L S true id0 d) S id = some y → x = y := by
  intro x y hx hy
  by_cases hne : id = id0
  · subst hne
    cases hfL : findRefById h L id with
    | none =>
      have hfL' : findRefById (mutateBothViews h L S true id d) L id = none := by
        rw [findRefById_mutateBothViews]; exact hfL
      rw [viewSpaces, hfL'] at hx
      exact absurd hx (by simp)
    | some a =>
      cases hfS : findRefById h S id with
      | none =>
        have hfS' : findRefById (mutateBothViews h L S true id d) S id = none := by
          rw [findRefById_mutateBothViews]; exact hfS
        rw [viewSpaces, hfS'] at hy
        exact absurd hy (by simp)
      | some b =>
        rcases eq_or_ne a b with rfl | hab
        · have hfL' : findRefById (mutateBothViews h L S true id d) L id =
              some a := by rw [findRefById_mutateBothViews]; exact hfL
          have hfS' : findRefById (mutateBothViews h L S true id d) S id =
              some a := by rw [findRefById_mutateBothViews]; exact hfS
          rw [viewSpaces, hfL'] at hx
          rw [viewSpaces, hfS'] at hy
          simp only [Option.some_bind] at hx hy
          rw [hx] at hy
          exact Option.some.inj hy
        · have hsep : ∀ z, findRefById h L id = some z →
              findRefById h S id ≠ some z := by
            intro z hz hcz
            rw [hfL] at hz
            rw [hfS] at hcz
            injection hz with hz'
            injection hcz with hcz'
            exact hab (hz'.symm ▸ hcz'.symm ▸ rfl)
          have hcat := viewSpaces_mutateBothViews_catalog h L S true id d
            fun _ => hsep
          have hsrch := viewSpaces_mutateBothViews_search h L S id d hsep
          rw [hcat] at hx
          rw [hsrch] at hy
          rcases Option.map_eq_some'.1 hx with ⟨u, hu, hux⟩
          rcases Option.map_eq_some'.1 hy with ⟨v, hv, hvy⟩
          have := hpre u v hu hv
          omega
  · rw [viewSpaces_mutateBothViews_ne h L S true id0 d L id hne] at hx
    rw [viewSpaces_mutateBothViews_ne h L S true id0 d S id hne] at hy
    exact hpre x y hx hy

/-- C1 amended: cart mutations preserve view consistency. If, before an
`addToCart` or a `removeFromCart`, the catalog record and the active search
record for a lesson id have equal `spaces`, they still have equal `spaces`
afterwards. (The original claim fails because a successful search response can
itself install a search copy whose `spaces` differs from the locally
decremented catalog value — see the counterexample — and cart mutations then
preserve that inequality; they never create one.) -/
theorem c1_amended (s : AppState) (r lessonId id : Nat)
    (hpre : viewConsistentAt s id) :
    viewConsistentAt (addToCart s r).1 id ∧
    viewConsistentAt (removeFromCart s lessonId) id := by
  constructor
  · cases hg : s.heap[r]? with
    | none => rw [addToCart_eq_none hg]; exact hpre
    | some o =>
      by_cases hsp : o.spaces ≤ 0
      · rw [addToCart_eq_guard hg hsp]; exact hpre
      · rw [addToCart_eq_success hg (by omega)]
        intro hact
        simp only at hact ⊢
        rw [hact]
        exact viewConsistent_mutate s.heap s.lessons s.searchResults o.lid
          (-1) id (hpre hact)
  · cases hf : removeFirstCart s.heap s.cartItems lessonId with
    | none => rw [removeFromCart_eq_none hf]; exact hpre
    | some p =>
      obtain ⟨item, rest⟩ := p
      rw [removeFromCart_eq_some hf]
      intro hact
      simp only at hact ⊢
      rw [hact]
      exact viewConsistent_mutate s.heap s.lessons s.searchResults lessonId
        (item.quantity : Int) id (hpre hact)

/-- Witness for C1 at a concrete mirrored state: catalog lesson 0 with
`spaces = 2`, search response mirroring `spaces = 2`; consistency at id 0 is
preserved by an add of the displayed copy and by a remove. -/
theorem c1_witness :
    viewConsistentAt
      (addToCart (searchSuccess (fetchSuccess initState [⟨0, 2⟩]) [⟨0, 2⟩]) 1).1
      0 ∧
    viewConsistentAt
      (removeFromCart (searchSuccess (fetchSuccess initState [⟨0, 2⟩]) [⟨0, 2⟩]) 0)
      0 := by
  have hpre : viewConsistentAt
      (searchSuccess (fetchSuccess initState [⟨0, 2⟩]) [⟨0, 2⟩]) 0 := by
    intro _ x y hx hy
    have h1 : viewSpaces
        (searchSuccess (fetchSuccess initState [⟨0, 2⟩]) [⟨0, 2⟩]).heap
        (searchSuccess (fetchSuccess initState [⟨0, 2⟩]) [⟨0, 2⟩]).lessons 0 =
        some 2 := by decide
    have h2 : viewSpaces
        (searchSuccess (fetchSuccess initState [⟨0, 2⟩]) [⟨0, 2⟩]).heap
        (searchSuccess (fetchSuccess initState [⟨0, 2⟩]) [⟨0, 2⟩]).searchResults
        0 = some 2 := by decide
    rw [h1] at hx
    rw [h2] at hy
    injection hx with hx'
    injection hy with hy'
    omega
  exact ⟨(c1_amended _ 1 0 0 hpre).1, (c1_amended _ 1 0 0 hpre).2⟩

/-! ### Claim C4: amended theorem -/

/-- `k` consecutive `addToCart` calls on the same clicked lesson object. -/
def addIter (s : AppState) (r : Nat) : Nat → AppState
  | 0 => s
  | n+1 => (addToCart (addIter s r n) r).1

/-- The state after `k` units of lesson `id` have been accumulated on a fresh
cart line for the clicked object `r`: both views decremented `k` times for
`id`, and the line appended at the end of the cart. -/
def pendState (s : AppState) (r id : Nat) (k : Nat) : AppState :=
  { s with
      heap := mutateBothViews s.heap s.lessons s.searchResults
        s.isSearchActive id (-(k : Int)),
      cartItems := s.cartItems ++ [⟨r, k⟩] }

theorem idAt_pendState (s : AppState) (r id : Nat) (k : Nat) (x : Nat) :
    idAt (pendState s r id k).heap x = idAt s.heap x :=
  idAt_mutateBothViews ..

theorem pendState_heap_some {s : AppState} {r id : Nat}
    (hid : idAt s.heap r = some id) (k : Nat) :
    ∃ o : LessonObj, (pendState s r id k).heap[r]? = some o ∧ o.lid = id := by
  have h1 : idAt (pendState s r id k).heap r = some id := by
    rw [idAt_pendState]; exact hid
  unfold idAt at h1
  rcases Option.map_eq_some'.1 h1 with ⟨o, ho, hol⟩
  exact ⟨o, ho, hol⟩

theorem pend_add {s : AppState} {r id : Nat}
    (hid : idAt s.heap r = some id)
    (hno : ∀ it ∈ s.cartItems, idAt s.heap it.lessonRef ≠ some id) (k : Nat) :
    (addToCart (pendState s r id k) r).1 = pendState s r id k ∨
    (addToCart (pendState s r id k) r).1 = pendState s r id (k + 1) := by
  obtain ⟨o, ho, hol⟩ := pendState_heap_some hid k
  by_cases hsp : o.spaces ≤ 0
  · left
    rw [addToCart_eq_guard ho hsp]
  · right
    rw [addToCart_eq_success ho (by omega)]
    have hcart : bumpCart (pendState s r id k).heap
        (pendState s r id k).cartItems o.lid r = s.cartItems ++ [⟨r, k + 1⟩] := by
      rw [hol]
      have hno' : ∀ it ∈ s.cartItems,
          idAt (pendState s r id k).heap it.lessonRef ≠ some id := by
        intro it hit
        rw [idAt_pendState]
        exact hno it hit
      have hid' : idAt (pendState s r id k).heap r = some id := by
        rw [idAt_pendState]; exact hid
      exact bumpCart_append hno' hid' k r
    have hheap : mutateBothViews (pendState s r id k).heap
        (pendState s r id k).lessons (pendState s r id k).searchResults
        (pendState s r id k).isSearchActive o.lid (-1) =
        mutateBothViews s.heap s.lessons s.searchResults s.isSearchActive id
          (-((k : Int) + 1)) := by
      rw [hol]
      show mutateBothViews (mutateBothViews s.heap s.lessons s.searchResults
          s.isSearchActive id (-(k : Int))) s.lessons s.searchResults
          s.isSearchActive id (-1) = _
      rw [mutateBothViews_comp]
      congr 1
      omega
    have hk1 : -((k : Int) + 1) = -(((k + 1 : Nat)) : Int) := by omega
    rw [hk1] at hheap
    simp only [pendState] at hcart hheap
    rw [hol] at hcart hheap
    unfold pendState
    dsimp only
    rw [hol, hcart, hheap]

theorem pend_remove {s : AppState} {r id : Nat}
    (hid : idAt s.heap r = some id)
    (hno : ∀ it ∈ s.cartItems, idAt s.heap it.lessonRef ≠ some id) (k : Nat) :
    removeFromCart (pendState s r id k) id = s := by
  have hno' : ∀ it ∈ s.cartItems,
      idAt (pendState s r id k).heap it.lessonRef ≠ some id := by
    intro it hit
    rw [idAt_pendState]
    exact hno it hit
  have hid' : idAt (pendState s r id k).heap r = some id := by
    rw [idAt_pendState]; exact hid
  have hf : removeFirstCart (pendState s r id k).heap
      (pendState s r id k).cartItems id = some (⟨r, k⟩, s.cartItems) :=
    removeFirstCart_append hno' hid' k
  rw [removeFromCart_eq_some hf]
  have hheap : mutateBothViews (mutateBothViews s.heap s.lessons
      s.searchResults s.isSearchActive id (-(k : Int))) s.lessons
      s.searchResults s.isSearchActive id (k : Int) = s.heap := by
    rw [mutateBothViews_comp]
    have hz : -(k : Int) + (k : Int) = 0 := by omega
    rw [hz, mutateBothViews_zero]
  unfold pendState
  rw [hheap]

theorem base_add {s : AppState} {r id : Nat}
    (hid : idAt s.heap r = some id)
    (hno : ∀ it ∈ s.cartItems, idAt s.heap it.lessonRef ≠ some id) :
    (addToCart s r).1 = s ∨ (addToCart s r).1 = pendState s r id 1 := by
  unfold idAt at hid
  rcases Option.map_eq_some'.1 hid with ⟨o, ho, hol⟩
  by_cases hsp : o.spaces ≤ 0
  · left
    rw [addToCart_eq_guard ho hsp]
  · right
    rw [addToCart_eq_success ho (by omega)]
    have hcart : bumpCart s.heap s.cartItems o.lid r =
        s.cartItems ++ [⟨r, 1⟩] := by
      rw [hol]
      exact bumpCart_no_match hno r
    have hone : -(((1 : Nat)) : Int) = (-1 : Int) := by omega
    rw [hol] at hcart
    unfold pendState
    dsimp only
    rw [hol, hone, hcart]

/-- C4 amended: `addToCart(L)` (any positive number of times) followed by one
`removeFromCart(L._id)` restores the state exactly — heap, both views and the
cart — provided no cart line for `L`'s id existed beforehand. (The original
claim quantified over every starting state; if a line for the id already
exists, removal returns the pre-existing quantity as well and deletes the
whole line, so the pre-add state is not restored — see the counterexample.) -/
theorem c4_amended (s : AppState) (r id : Nat) (n : Nat)
    (hid : idAt s.heap r = some id)
    (hno : ∀ it ∈ s.cartItems, idAt s.heap it.lessonRef ≠ some id) :
    removeFromCart (addIter s r (n + 1)) id = s := by
  have hQ : ∀ m, addIter s r m = s ∨ ∃ k, addIter s r m = pendState s r id k := by
    intro m
    induction m with
    | zero => exact Or.inl rfl
    | succ m ih =>
      have hstep : addIter s r (m + 1) = (addToCart (addIter s r m) r).1 := rfl
      rcases ih with he | ⟨k, he⟩
      · rw [hstep, he]
        rcases base_add hid hno with h | h
        · exact Or.inl h
        · exact Or.inr ⟨1, h⟩
      · rw [hstep, he]
        rcases pend_add hid hno k with h | h
        · exact Or.inr ⟨k, h⟩
        · exact Or.inr ⟨k + 1, h⟩
  rcases hQ (n + 1) with he | ⟨k, he⟩
  · rw [he]
    exact removeFromCart_eq_none (removeFirstCart_none hno)
  · rw [he]
    exact pend_remove hid hno k

/-- Witness for C4: catalog lesson 0 with `spaces = 5`, empty cart; two adds
followed by one remove restore the state exactly. -/
theorem c4_witness :
    removeFromCart (addIter (fetchSuccess initState [⟨0, 5⟩]) 0 2) 0 =
      fetchSuccess initState [⟨0, 5⟩] :=
  c4_amended (fetchSuccess initState [⟨0, 5⟩]) 0 0 1 (by decide)
    (by intro it hit; simp [fetchSuccess, initState] at hit)

/-! ### Claim C6: amended theorem -/

theorem bumpCart_first_match {h : List LessonObj} {l1 : List CartItem}
    {it : CartItem} {l2 : List CartItem} {id : Nat}
    (hno : ∀ x ∈ l1, idAt h x.lessonRef ≠ some id)
    (hit : idAt h it.lessonRef = some id) (r : Nat) :
    bumpCart h (l1 ++ it :: l2) id r =
      l1 ++ { it with quantity := it.quantity + 1 } :: l2 := by
  induction l1 with
  | nil => simp [bumpCart, hit]
  | cons y ys ih =>
    have h1 : (idAt h y.lessonRef == some id) = false :=
      beq_eq_false_iff_ne.2 (hno y (by simp))
    simp [bumpCart, h1, ih fun x hx => hno x (by simp [hx])]

/-- C6 amended: for a displayed lesson object `r` with `spaces > 0` and
identity `id`, `addToCart` increments the first existing cart line for `id` by
one (otherwise appends a fresh quantity-1 line at the end), decrements the
catalog record for `id` by exactly one and — when search is active — the
search record for `id` by exactly one, and leaves every other id's records
untouched, *provided* the catalog and search views do not share the record
`find` locates for `id` (after the search-failure fallback the two views alias
the same array, and the single shared record is then decremented twice — see
the counterexample). In addition, in every reachable state a lesson id sits on
at most one cart line. -/
theorem c6_amended :
    (∀ s : AppState, Reachable s → ∀ id : Nat,
      linesFor s.heap s.cartItems id ≤ 1) ∧
    (∀ (s : AppState) (r : Nat) (o : LessonObj), s.heap[r]? = some o →
      0 < o.spaces →
      (s.isSearchActive = true →
        ∀ x, findRefById s.heap s.lessons o.lid = some x →
          findRefById s.heap s.searchResults o.lid ≠ some x) →
      ((∀ it ∈ s.cartItems, idAt s.heap it.lessonRef ≠ some o.lid) →
        (addToCart s r).1.cartItems = s.cartItems ++ [⟨r, 1⟩]) ∧
      (∀ l1 it l2, s.cartItems = l1 ++ it :: l2 →
        (∀ x ∈ l1, idAt s.heap x.lessonRef ≠ some o.lid) →
        idAt s.heap it.lessonRef = some o.lid →
        (addToCart s r).1.cartItems =
          l1 ++ { it with quantity := it.quantity + 1 } :: l2) ∧
      viewSpaces (addToCart s r).1.heap s.lessons o.lid =
        (viewSpaces s.heap s.lessons o.lid).map (· + (-1)) ∧
      (s.isSearchActive = true →
        viewSpaces (addToCart s r).1.heap s.searchResults o.lid =
          (viewSpaces s.heap s.searchResults o.lid).map (· + (-1))) ∧
      (∀ id', id' ≠ o.lid →
        viewSpaces (addToCart s r).1.heap s.lessons id' =
          viewSpaces s.heap s.lessons id' ∧
        viewSpaces (addToCart s r).1.heap s.searchResults id' =
          viewSpaces s.heap s.searchResults id')) := by
  constructor
  · intro s hs id
    exact (reachable_inv hs).2 id
  · intro s r o ho hsp hsep
    rw [addToCart_eq_success ho (by omega)]
    refine ⟨?_, ?_, ?_, ?_, ?_⟩
    · intro hno
      exact bumpCart_no_match hno r
    · intro l1 it l2 hdec hno hit
      rw [hdec]
      exact bumpCart_first_match hno hit r
    · exact viewSpaces_mutateBothViews_catalog s.heap s.lessons s.searchResults
        s.isSearchActive o.lid (-1) hsep
    · intro hact
      rw [hact]
      exact viewSpaces_mutateBothViews_search s.heap s.lessons s.searchResults
        o.lid (-1) (hsep hact)
    · intro id' hne
      exact ⟨viewSpaces_mutateBothViews_ne s.heap s.lessons s.searchResults
          s.isSearchActive o.lid (-1) s.lessons id' hne,
        viewSpaces_mutateBothViews_ne s.heap s.lessons s.searchResults
          s.isSearchActive o.lid (-1) s.searchResults id' hne⟩

/-- Witness for C6: catalog lesson 0 with `spaces = 3`, no search, empty
cart. The reachable-state invariant holds, the add appends a quantity-1 line,
and the catalog record drops by exactly one. -/
theorem c6_witness :
    linesFor (fetchSuccess initState [⟨0, 3⟩]).heap
      (fetchSuccess initState [⟨0, 3⟩]).cartItems 0 ≤ 1 ∧
    (addToCart (fetchSuccess initState [⟨0, 3⟩]) 0).1.cartItems =
      [⟨0, 1⟩] ∧
    viewSpaces (addToCart (fetchSuccess initState [⟨0, 3⟩]) 0).1.heap
      (fetchSuccess initState [⟨0, 3⟩]).lessons 0 =
      (viewSpaces (fetchSuccess initState [⟨0, 3⟩]).heap
        (fetchSuccess initState [⟨0, 3⟩]).lessons 0).map (· + (-1)) := by
  have h2 := c6_amended.2 (fetchSuccess initState [⟨0, 3⟩]) 0 ⟨0, 3⟩
    (by decide) (by decide)
    (by intro hact; exact absurd hact (by decide))
  refine ⟨c6_amended.1 (fetchSuccess initState [⟨0, 3⟩])
      (Reachable.step Reachable.init (Step.fetch _ _)) 0, ?_, h2.2.2.1⟩
  have hline := h2.1 (by intro it hit; simp [fetchSuccess, initState] at hit)
  simpa [fetchSuccess, initState] using hline

/-! ### Claim C7: amended theorem -/

/-- C7 amended: `removeFromCart(lessonId)` is a strict no-op when no cart line
for the id exists; otherwise it deletes exactly the first (by the reachable
at-most-one-line invariant: the only) matching line in its entirety and adds
the line's whole quantity back to the catalog record for the id and — when
search is active — to the search record, leaving every other id's records
untouched, *provided* the two views do not share the located record (in the
aliased state after the search-failure fallback the single shared record
receives the quantity twice — see the counterexample). -/
theorem c7_amended :
    (∀ (s : AppState) (id : Nat),
      removeFirstCart s.heap s.cartItems id = none → removeFromCart s id = s) ∧
    (∀ (s : AppState) (id : Nat) (item : CartItem) (rest : List CartItem),
      removeFirstCart s.heap s.cartItems id = some (item, rest) →
      (s.isSearchActive = true →
        ∀ x, findRefById s.heap s.lessons id = some x →
          findRefById s.heap s.searchResults id ≠ some x) →
      (∃ l1 l2, s.cartItems = l1 ++ item :: l2 ∧
        (removeFromCart s id).cartItems = l1 ++ l2 ∧
        idAt s.heap item.lessonRef = some id ∧
        ∀ x ∈ l1, idAt s.heap x.lessonRef ≠ some id) ∧
      viewSpaces (removeFromCart s id).heap s.lessons id =
        (viewSpaces s.heap s.lessons id).map (· + (item.quantity : Int)) ∧
      (s.isSearchActive = true →
        viewSpaces (removeFromCart s id).heap s.searchResults id =
          (viewSpaces s.heap s.searchResults id).map
            (· + (item.quantity : Int))) ∧
      (∀ id', id' ≠ id →
        viewSpaces (removeFromCart s id).heap s.lessons id' =
          viewSpaces s.heap s.lessons id' ∧
        viewSpaces (removeFromCart s id).heap s.searchResults id' =
          viewSpaces s.heap s.searchResults id')) := by
  constructor
  · intro s id hn
    exact removeFromCart_eq_none hn
  · intro s id item rest hf hsep
    rw [removeFromCart_eq_some hf]
    obtain ⟨l1, l2, hc, hrst, hitid, hnone⟩ := removeFirstCart_eq_some hf
    refine ⟨⟨l1, l2, hc, by rw [hrst], hitid, hnone⟩, ?_, ?_, ?_⟩
    · exact viewSpaces_mutateBothViews_catalog s.heap s.lessons s.searchResults
        s.isSearchActive id (item.quantity : Int) hsep
    · intro hact
      rw [hact]
      exact viewSpaces_mutateBothViews_search s.heap s.lessons s.searchResults
        id (item.quantity : Int) (hsep hact)
    · intro id' hne
      exact ⟨viewSpaces_mutateBothViews_ne s.heap s.lessons s.searchResults
          s.isSearchActive id (item.quantity : Int) s.lessons id' hne,
        viewSpaces_mutateBothViews_ne s.heap s.lessons s.searchResults
          s.isSearchActive id (item.quantity : Int) s.searchResults id' hne⟩

/-- Witness for C7: a remove on an absent id is a no-op, and a remove of the
quantity-1 line for lesson 0 (catalog `spaces = 2` after one add) restores the
catalog record's spaces by exactly the line's quantity. -/
theorem c7_witness :
    removeFromCart (fetchSuccess initState [⟨0, 3⟩]) 0 =
      fetchSuccess initState [⟨0, 3⟩] ∧
    viewSpaces
      (removeFromCart (addToCart (fetchSuccess initState [⟨0, 3⟩]) 0).1 0).heap
      (addToCart (fetchSuccess initState [⟨0, 3⟩]) 0).1.lessons 0 =
      (viewSpaces (addToCart (fetchSuccess initState [⟨0, 3⟩]) 0).1.heap
        (addToCart (fetchSuccess initState [⟨0, 3⟩]) 0).1.lessons 0).map
        (· + ((1 : Nat) : Int)) := by
  constructor
  · exact c7_amended.1 (fetchSuccess initState [⟨0, 3⟩]) 0 (by decide)
  · have h2 := c7_amended.2 (addToCart (fetchSuccess initState [⟨0, 3⟩]) 0).1
      0 ⟨0, 1⟩ [] (by decide)
      (by intro hact; exact absurd hact (by decide))
    exact h2.2.1

/-! ### Claim C10: amended theorem -/

theorem validateNameErr_eq_none (n : List Char) :
    validateNameErr n = none ↔
      ((jsTrim n).all (fun c => isAsciiLetter c || jsWhitespace c) = true ∧
        2 ≤ (jsTrim n).length) := by
  unfold validateNameErr
  by_cases h1 : (jsTrim n).isEmpty
  · have h0 : jsTrim n = [] := List.isEmpty_iff.1 h1
    simp [h1, h0]
  · rw [if_neg h1]
    by_cases h2 : namePatternTest (jsTrim n) = true
    · rw [if_neg (by simp [h2])]
      by_cases h3 : (jsTrim n).length < 2
      · rw [if_pos h3]
        constructor
        · intro hc
          exact absurd hc (by simp)
        · intro ⟨_, hlen⟩
          omega
      · rw [if_neg h3]
        unfold namePatternTest at h2
        rw [Bool.and_eq_true] at h2
        exact ⟨fun _ => ⟨h2.2, by omega⟩, fun _ => rfl⟩
    · rw [if_pos (by simp [h2])]
      constructor
      · intro hc
        exact absurd hc (by simp)
      · intro ⟨hall, _⟩
        unfold namePatternTest at h2
        rw [Bool.and_eq_true] at h2
        exact absurd ⟨by simp [h1], hall⟩ h2

theorem validatePhoneErr_eq_none (p : List Char) :
    validatePhoneErr p = none ↔
      ((jsTrim p).all isAsciiDigit = true ∧
        10 ≤ (jsTrim p).length ∧ (jsTrim p).length ≤ 15) := by
  unfold validatePhoneErr
  by_cases h1 : (jsTrim p).isEmpty
  · have h0 : jsTrim p = [] := List.isEmpty_iff.1 h1
    simp [h1, h0]
  · rw [if_neg h1]
    by_cases h2 : phonePatternTest (jsTrim p) = true
    · rw [if_neg (by simp [h2])]
      by_cases h3 : (jsTrim p).length < 10
      · rw [if_pos h3]
        constructor
        · intro hc
          exact absurd hc (by simp)
        · intro ⟨_, hlen, _⟩
          omega
      · rw [if_neg h3]
        by_cases h4 : (jsTrim p).length > 15
        · rw [if_pos h4]
          constructor
          · intro hc
            exact absurd hc (by simp)
          · intro ⟨_, _, hlen⟩
            omega
        · rw [if_neg h4]
          unfold phonePatternTest at h2
          rw [Bool.and_eq_true] at h2
          exact ⟨fun _ => ⟨h2.2, by omega, by omega⟩, fun _ => rfl⟩
    · rw [if_pos (by simp [h2])]
      constructor
      · intro hc
        exact absurd hc (by simp)
      · intro ⟨hall, _⟩
        unfold phonePatternTest at h2
        rw [Bool.and_eq_true] at h2
        exact absurd ⟨by simp [h1], hall⟩ h2

/-- C10 amended: the checkout form emits the `submit-order` event — always
with the trimmed name and trimmed phone — exactly when the trimmed name
consists solely of letters and whitespace characters (the regex class `\s`,
which also admits tabs, newlines etc., not the space alone) with length at
least 2, and the trimmed phone consists solely of digits with length between
10 and 15 inclusive. -/
theorem c10_amended (nameIn phoneIn : List Char) :
    (handleSubmitModel nameIn phoneIn = some (jsTrim nameIn, jsTrim phoneIn) ↔
      ((jsTrim nameIn).all (fun c => isAsciiLetter c || jsWhitespace c) = true ∧
        2 ≤ (jsTrim nameIn).length ∧
        (jsTrim phoneIn).all isAsciiDigit = true ∧
        10 ≤ (jsTrim phoneIn).length ∧ (jsTrim phoneIn).length ≤ 15)) ∧
    (∀ nm ph, handleSubmitModel nameIn phoneIn = some (nm, ph) →
      nm = jsTrim nameIn ∧ ph = jsTrim phoneIn) := by
  unfold handleSubmitModel
  by_cases hc : (!(jsTrim nameIn).isEmpty && !(jsTrim phoneIn).isEmpty &&
      (validateNameErr nameIn).isNone && (validatePhoneErr phoneIn).isNone) = true
  · rw [if_pos hc]
    simp only [Bool.and_eq_true, Bool.not_eq_true', Option.isNone_iff_eq_none] at hc
    obtain ⟨⟨⟨hn1, hp1⟩, hn2⟩, hp2⟩ := hc
    have hn3 := (validateNameErr_eq_none nameIn).1 hn2
    have hp3 := (validatePhoneErr_eq_none phoneIn).1 hp2
    refine ⟨⟨fun _ => ⟨hn3.1, hn3.2, hp3.1, hp3.2.1, hp3.2.2⟩, fun _ => rfl⟩, ?_⟩
    intro nm ph he
    simp only [Option.some.injEq, Prod.mk.injEq] at he
    exact ⟨he.1.symm, he.2.symm⟩
  · rw [if_neg hc]
    constructor
    · constructor
      · intro he
        exact absurd he (by simp)
      · intro ⟨hall, hlen, hdig, hlen10, hlen15⟩
        exfalso
        apply hc
        have hn2 : validateNameErr nameIn = none :=
          (validateNameErr_eq_none nameIn).2 ⟨hall, hlen⟩
        have hp2 : validatePhoneErr phoneIn = none :=
          (validatePhoneErr_eq_none phoneIn).2 ⟨hdig, hlen10, hlen15⟩
        have hne : (jsTrim nameIn).isEmpty = false := by
          cases hl : (jsTrim nameIn) with
          | nil => rw [hl] at hlen; simp at hlen
          | cons a as => simp
        have hpe : (jsTrim phoneIn).isEmpty = false := by
          cases hl : (jsTrim phoneIn) with
          | nil => rw [hl] at hlen10; simp at hlen10
          | cons a as => simp
        simp [hne, hpe, hn2, hp2]
    · intro nm ph he
      exact absurd he (by simp)

/-- Witness for C10 at a concrete valid input. -/
theorem c10_witness :
    handleSubmitModel "  Jane Doe ".toList "0123456789".toList =
      some (jsTrim "  Jane Doe ".toList, jsTrim "0123456789".toList) :=
  (c10_amended "  Jane Doe ".toList "0123456789".toList).1.mpr (by decide)

end AfterSchool
